import Mathlib

set_option autoImplicit false

/-!
Shallow embedding of the event-sourced relational database core
(Go sources: `eventlog/log.go`, `storage/replay.go`, `storage/queryengine.go`,
`storage/snapshot_manager.go`, the schema registry / migrator, the catalog,
the hash index and the database façade), together with theorems settling the
frozen claims about it.

Modelling conventions:
- Go `map[K]V` values are embedded as association lists `List (K × V)` whose
  semantics is first-match lookup (`mget`); Go maps have unique keys, so
  wherever a claim needs it this is recorded as a no-duplicate-keys
  hypothesis.  Equality of states "modulo map iteration order" is expressed
  through the lookup functions.
- Go `float64` row values are embedded by tag only (`Value.vFloat`): every
  claim in scope depends on which dynamic type a value carries, never on
  float arithmetic, and the JSON numbers the program stores are integral.
- `int64` and `uint64` are embedded as `Int` / `Nat`; no claim in scope can
  drive them anywhere near the wrap-around boundary within an executable
  trace.
- SHA-256 composed with the canonical JSON serialization is embedded as an
  abstract function `hash : Event → String` applied to the event with its
  checksum field cleared; checksum claims are proved for every such function
  and witnessed at a concrete one.
-/

namespace Spec2Proof

/-- Dynamic row values as they appear in the Go program after a JSON round
trip: `float64`, `int64`, `string`, `bool` (`schema.ColumnType` only admits
INT, TEXT, BOOL; `int64` appears when callers bypass JSON, e.g. in tests).
`vFloat` keeps the integral payload of the float, which is all the program
ever stores in it. -/
inductive Value where
  | vFloat (n : Int)
  | vInt (n : Int)
  | vStr (s : String)
  | vBool (b : Bool)
  deriving DecidableEq, Repr

/-- Go `fmt.Sprintf("%v", v)` on the dynamic values above: integral floats
render like integers under `%v`. -/
def Value.render : Value → String
  | .vFloat n => toString n
  | .vInt n => toString n
  | .vStr s => s
  | .vBool b => if b then "true" else "false"

/-- Whether a dynamic value carries the `float64` representation
(`val.(float64)` succeeds). -/
def Value.isFloat : Value → Bool
  | .vFloat _ => true
  | _ => false

/-- Source `database/operations.go` `valuesEqual`: string identity of the
`%v` renderings. -/
def valuesEqual (a b : Value) : Bool :=
  a.render == b.render

/-- First-match lookup in an association list: the read `m[k]` of a Go map
(together with the `, ok` flag via `Option`). -/
def mget {κ α : Type} [DecidableEq κ] : List (κ × α) → κ → Option α
  | [], _ => none
  | (k, v) :: rest, key => if k = key then some v else mget rest key

/-- Go map write `m[k] = v`: replace the first binding of the key, or append
a new binding. -/
def mset {κ α : Type} [DecidableEq κ] : List (κ × α) → κ → α → List (κ × α)
  | [], key, val => [(key, val)]
  | (k, v) :: rest, key, val =>
      if k = key then (k, val) :: rest else (k, v) :: mset rest key val

/-- Go `delete(m, k)`: drop the bindings of the key. -/
def mdel {κ α : Type} [DecidableEq κ] : List (κ × α) → κ → List (κ × α)
  | [], _ => []
  | (k, v) :: rest, key =>
      if k = key then mdel rest key else (k, v) :: mdel rest key

/-- A row: Go `storage.Row = map[string]interface{}`. -/
abbrev Row := List (String × Value)

/-- Column type tag, the closed set behind `schema.ColumnType`. -/
inductive ColType where
  | int
  | text
  | bool
  deriving DecidableEq, Repr

/-- Source `schema/schema.go` `Column`. -/
structure Column where
  name : String
  ty : ColType
  primaryKey : Bool
  unique : Bool
  deriving DecidableEq, Repr

/-- Source `schema/schema.go` `Table`.  Note that `catalog.CreateTable`
stores tables with `primaryKey` left empty. -/
structure Table where
  name : String
  columns : List Column
  primaryKey : String
  deriving DecidableEq, Repr

/-- Column definition carried inside a SCHEMA_CREATED payload
(`eventlog.ColumnDefinition`). -/
structure ColumnDef where
  name : String
  ty : String
  nullable : Bool
  primaryKey : Bool
  unique : Bool
  deriving DecidableEq, Repr

/-- Event payloads, the tagged union of the six event kinds.  The Go code
carries them as `map[string]interface{}` after a JSON round trip and every
constructor site pairs the payload shape with the matching `Event.Type`, so
the embedding lets the payload determine the kind. -/
inductive Payload where
  | schemaCreated (tableName : String) (columns : List ColumnDef) (primaryKey : String)
  | rowInserted (tableName : String) (rowID : Int) (data : Row)
  | rowUpdated (tableName : String) (rowID : Int) (changes : Row) (oldValues : Row)
  | rowDeleted (tableName : String) (rowID : Int) (deletedData : Row)
  | schemaEvolved (tableName : String)
  | snapshotCreated (snapshotID : String) (baseEventID : Nat)
  deriving DecidableEq, Repr

/-- Source `eventlog` `Event`: monotonic id, UTC timestamp (opaque here),
schema version, transaction tag, payload, checksum over the rest. -/
structure Event where
  id : Nat
  timestamp : Nat
  version : Int
  txID : String
  payload : Payload
  checksum : String
  deriving DecidableEq, Repr

/-- Source `storage` `DerivedState`: per table the id-to-row map and the
tombstone set (`DeletedRows`, a `map[int64]bool`). -/
structure DerivedState where
  tables : List (String × List (Int × Row))
  deletedRows : List (String × List (Int × Bool))
  deriving DecidableEq, Repr

/-- The empty derived state. -/
def DerivedState.empty : DerivedState :=
  { tables := [], deletedRows := [] }

/-- Raw row-map lookup, bypassing tombstones (`state.Tables[t][id]`). -/
def DerivedState.lookupRow (s : DerivedState) (t : String) (id : Int) : Option Row :=
  (mget s.tables t).bind fun tm => mget tm id

/-- Go read `s.DeletedRows[t][id]` with the double zero-value default:
a missing table or a missing id reads as `false`. -/
def DerivedState.isDeleted (s : DerivedState) (t : String) (id : Int) : Bool :=
  ((mget s.deletedRows t).bind fun dm => mget dm id).getD false

/-- The `if _, exists := state.Tables[t]; !exists` block shared by every
event case of the replay functions: create both the row map and the
tombstone set when the table map is absent. -/
def ensureTable (s : DerivedState) (t : String) : DerivedState :=
  if (mget s.tables t).isSome then s
  else { tables := mset s.tables t [], deletedRows := mset s.deletedRows t [] }

/-- Merge a `changes` map into a row, the `for k, v := range changesRaw`
loop of the ROW_UPDATED case. -/
def mergeChanges (old changes : Row) : Row :=
  changes.foldl (fun r p => mset r p.1 p.2) old

/-- One step of the derived-state builder: the `switch e.Type` body shared
verbatim by `storage/replay.go` `replayEventsOntoState` and
`ReplayEvents` / `ReplayEventsUpTo`.  SCHEMA_EVOLVED and SNAPSHOT_CREATED
have no case there and leave the state unchanged.  The Go code creates the
per-table row map and tombstone map together and checks only the row map's
presence, so its inner-map writes assume the two outer maps are
key-synchronized; the embedding's `getD []` reads coincide with the code on
exactly those key-synchronized states (which are all the states the
program produces), and every theorem below applies `applyEvent` only at
such states. -/
def applyEvent (s : DerivedState) (e : Event) : DerivedState :=
  match e.payload with
  | .schemaCreated t _ _ => ensureTable s t
  | .rowInserted t rid data =>
      let s1 := ensureTable s t
      let tm := (mget s1.tables t).getD []
      let dm := (mget s1.deletedRows t).getD []
      { tables := mset s1.tables t (mset tm rid data),
        deletedRows := mset s1.deletedRows t (mdel dm rid) }
  | .rowUpdated t rid changes _ =>
      let s1 := ensureTable s t
      let tm := (mget s1.tables t).getD []
      let old := (mget tm rid).getD []
      { s1 with tables := mset s1.tables t (mset tm rid (mergeChanges old changes)) }
  | .rowDeleted t rid _ =>
      let s1 := ensureTable s t
      let dm := (mget s1.deletedRows t).getD []
      { s1 with deletedRows := mset s1.deletedRows t (mset dm rid true) }
  | .schemaEvolved _ => s
  | .snapshotCreated _ _ => s

/-- Fold of `applyEvent` over an event sequence: the loop body of the
replay functions. -/
def applyEvents (s : DerivedState) (events : List Event) : DerivedState :=
  events.foldl applyEvent s

/-- Source `ReplayEventsUpTo` (`DerivedState` file): replay from empty,
stopping before the first event whose id exceeds `upTo` when `upTo > 0`. -/
def replayUpToAux : List Event → Nat → DerivedState → DerivedState
  | [], _, s => s
  | e :: rest, upTo, s =>
      if 0 < upTo ∧ upTo < e.id then s
      else replayUpToAux rest upTo (applyEvent s e)

/-- Source `ReplayEventsUpTo`, entry point. -/
def replayEventsUpTo (events : List Event) (upTo : Nat) : DerivedState :=
  replayUpToAux events upTo DerivedState.empty

/-- Source `ReplayEvents`: replay all events from the empty state. -/
def replayEvents (events : List Event) : DerivedState :=
  replayEventsUpTo events 0

/-- Source `DerivedState.GetTableRows`: the visible rows of a table, the
stored row map filtered by the tombstone set. -/
def DerivedState.getTableRows (s : DerivedState) (t : String) : List (Int × Row) :=
  match mget s.tables t with
  | none => []
  | some tm => tm.filter fun p => !(s.isDeleted t p.1)

/-- Source `DerivedState.GetRow`: a single row, `none` when absent or
tombstoned. -/
def DerivedState.getRow (s : DerivedState) (t : String) (id : Int) : Option Row :=
  match mget s.tables t with
  | none => none
  | some tm =>
      match mget tm id with
      | none => none
      | some row => if s.isDeleted t id then none else some row

example : (applyEvents DerivedState.empty
    [⟨1, 0, 1, "", .schemaCreated "t" [] "", ""⟩,
     ⟨2, 0, 1, "", .rowInserted "t" 0 [("a", .vFloat 1)], ""⟩]).getRow "t" 0
    = some [("a", .vFloat 1)] := by decide

example : (applyEvents DerivedState.empty
    [⟨1, 0, 1, "", .rowInserted "t" 0 [("a", .vFloat 1)], ""⟩,
     ⟨2, 0, 1, "", .rowDeleted "t" 0 [], ""⟩]).getRow "t" 0 = none := by decide

/-!
Event log level (`eventlog/log.go`).  The newline-delimited file is a list
of records; a record either decodes to an event or is structurally damaged
(the JSON decoder fails on it).  A well-formed record decodes back to the
event that was marshalled, so decodable records carry the event itself.
-/

/-- One on-disk record of `events.log`. -/
inductive LogRec where
  | ok (e : Event)
  | damaged
  deriving DecidableEq, Repr

/-- Whether a record decodes. -/
def LogRec.isOk : LogRec → Bool
  | .ok _ => true
  | .damaged => false

/-- The decoded event of a record, when it decodes. -/
def LogRec.event? : LogRec → Option Event
  | .ok e => some e
  | .damaged => none

/-- Source `eventlog.Log`: file contents plus the next id to assign
(`currentID`; on open it is set to one past the decodable record count). -/
structure EventLog where
  recs : List LogRec
  currentID : Nat
  deriving DecidableEq, Repr

/-- Source `computeEventChecksum`: the hash of the event with its checksum
field cleared.  `hash` abstracts SHA-256 over the canonical JSON
serialization, rendered as lowercase hex. -/
def computeEventChecksum (hash : Event → String) (e : Event) : String :=
  hash { e with checksum := "" }

/-- Source `validateEventChecksum`: recompute and compare. -/
def validateEventChecksum (hash : Event → String) (e : Event) : Bool :=
  decide (computeEventChecksum hash e = e.checksum)

/-- Source `Log.Append`: build the event with id `currentID` and the current
timestamp, stamp its checksum, write the record at the end of the file and
advance `currentID`.  Returns the new log and the stored event. -/
def logAppend (hash : Event → String) (l : EventLog) (payload : Payload)
    (txID : String) (version : Int) (now : Nat) : EventLog × Event :=
  let base : Event :=
    { id := l.currentID, timestamp := now, version := version,
      txID := txID, payload := payload, checksum := "" }
  let e : Event := { base with checksum := computeEventChecksum hash base }
  ({ recs := l.recs ++ [LogRec.ok e], currentID := l.currentID + 1 }, e)

/-- Source `Log.Read` loop: stop at the first structurally damaged record,
skip (with a diagnostic, not modelled) any decodable record whose checksum
fails validation, collect the rest. -/
def readRecs (hash : Event → String) : List LogRec → List Event
  | [] => []
  | .damaged :: _ => []
  | .ok e :: rest =>
      if validateEventChecksum hash e then e :: readRecs hash rest
      else readRecs hash rest

/-- Source `Log.Read`, on the log. -/
def logRead (hash : Event → String) (l : EventLog) : List Event :=
  readRecs hash l.recs

/-- Source `Log.ReadFrom` loop: stop at the first structurally damaged
record, keep every decoded event with `e.ID >= startEventID`.  No checksum
validation happens on this path. -/
def readFromRecs : List LogRec → Nat → List Event
  | [], _ => []
  | .damaged :: _, _ => []
  | .ok e :: rest, start =>
      if start ≤ e.id then e :: readFromRecs rest start
      else readFromRecs rest start

/-- Source `Log.ReadFrom`, on the log. -/
def logReadFrom (l : EventLog) (start : Nat) : List Event :=
  readFromRecs l.recs start

/-- Source `Log.LastID`: one less than the next id to assign. -/
def logLastID (l : EventLog) : Nat :=
  l.currentID - 1

/-!
Heap model for `storage/replay.go` `replayEventsOntoState`.  Go maps are
reference values: the function builds its working state with
`Tables: baseState.Tables` and `DeletedRows: baseState.DeletedRows`, so the
working state and the caller's base state denote the same two map objects
and every event is applied through that shared reference.  The heap holds
the contents of table-map objects and tombstone-map objects addressed by
cell numbers; a state value in the caller's hands is a pair of cells.
-/

/-- Contents of a tables object (`map[string]map[int64]Row`). -/
abbrev TablesObj := List (String × List (Int × Row))

/-- Contents of a tombstones object (`map[string]map[int64]bool`). -/
abbrev DeletedObj := List (String × List (Int × Bool))

/-- The heap of map objects, split by object kind. -/
structure Heap where
  tcells : Nat → TablesObj
  dcells : Nat → DeletedObj

/-- A `*DerivedState` in a caller's hands: references to its two maps. -/
structure StateRef where
  tcell : Nat
  dcell : Nat
  deriving DecidableEq, Repr

/-- The state value currently reachable through a reference. -/
def heapRead (h : Heap) (r : StateRef) : DerivedState :=
  { tables := h.tcells r.tcell, deletedRows := h.dcells r.dcell }

/-- Overwrite the two map objects a reference points to. -/
def heapWrite (h : Heap) (r : StateRef) (s : DerivedState) : Heap :=
  { tcells := fun n => if n = r.tcell then s.tables else h.tcells n,
    dcells := fun n => if n = r.dcell then s.deletedRows else h.dcells n }

/-- Source `replayEventsOntoState`: the working state shares the base's map
objects (`Tables: baseState.Tables`, `DeletedRows: baseState.DeletedRows`),
then each event of the loop mutates those shared objects in place.  Returns
the reference handed back to the caller and the heap after the call. -/
def replayEventsOntoState (h : Heap) (base : StateRef) (events : List Event) :
    StateRef × Heap :=
  (base, events.foldl (fun hh e => heapWrite hh base (applyEvent (heapRead hh base) e)) h)

/-!
Schema registry and migrator (`schema` package, `MigrateRow` and friends).
-/

/-- Migration operators, the closed sum behind `schema.MigrationOp`. -/
inductive MigrationOp where
  | addColumn (col : Column) (dflt : Value)
  | removeColumn (name : String)
  | modifyColumn (name : String) (oldDef newDef : Column)
  | renameColumn (oldName newName : String)
  deriving DecidableEq, Repr

/-- Source `schema.Migration`. -/
structure Migration where
  fromVersion : Int
  toVersion : Int
  operations : List MigrationOp
  deriving DecidableEq, Repr

/-- Source `schema.SchemaRegistry`, restricted to the migration table the
`MigrateRow` path reads; keys are the literal `"<t>_<v>_to_<v+1>"` strings
built with `fmt.Sprintf`. -/
structure SchemaRegistry where
  migrations : List (String × Migration)
  deriving DecidableEq, Repr

/-- The `fmt.Sprintf("%s_%d_to_%d", t, v, v+1)` key of the step `v → v+1`. -/
def migKey (t : String) (v : Int) : String :=
  t ++ "_" ++ toString v ++ "_to_" ++ toString (v + 1)

/-- One operator step of `applyMigration`'s loop. -/
def applyMigrationOp (r : Row) : MigrationOp → Row
  | .addColumn col dflt =>
      if (mget r col.name).isSome then r else mset r col.name dflt
  | .removeColumn n => mdel r n
  | .modifyColumn n _ _ =>
      match mget r n with
      | some v => mset r n v
      | none => r
  | .renameColumn oldName newName =>
      match mget r oldName with
      | some v => mdel (mset r newName v) oldName
      | none => r

/-- Source `applyMigration`: copy the row (the copy is the identity on pure
values) and apply the operators in order.  Go's error branch is the default
case of a type switch over the closed operator sum and is unreachable
here. -/
def applyMigration (r : Row) (m : Migration) : Row :=
  m.operations.foldl applyMigrationOp r

/-- Migration errors, by taxonomy kind (the Go code returns message
strings). -/
inductive MigErr where
  | backwardMigration
  | noMigrationPath
  deriving DecidableEq, Repr

/-- The `for version := fromVersion; version < toVersion` loop of
`MigrateRow`: look up each step `v → v+1` and apply it, failing with
NO_MIGRATION_PATH on the first unregistered step. -/
def migrateLoop (reg : SchemaRegistry) (t : String) (vTo : Int) :
    (v : Int) → Row → Except MigErr Row := fun v row =>
  if _h : v < vTo then
    match mget reg.migrations (migKey t v) with
    | none => .error .noMigrationPath
    | some m => migrateLoop reg t vTo (v + 1) (applyMigration row m)
  else .ok row
  termination_by v => (vTo - v).toNat
  decreasing_by omega

/-- Source `SchemaRegistry.MigrateRow`: identity when `vFrom = vTo`,
BACKWARD_MIGRATION when `vFrom > vTo`, otherwise the sequential step
loop. -/
def MigrateRow (reg : SchemaRegistry) (t : String) (row : Row)
    (vFrom vTo : Int) : Except MigErr Row :=
  if vFrom = vTo then .ok row
  else if vTo < vFrom then .error .backwardMigration
  else migrateLoop reg t vTo vFrom row

/-- Decidable form of "every step `v → v+1` for `v` in `[v1, v3)` is
registered". -/
def stepsRegistered (reg : SchemaRegistry) (t : String) (v1 v3 : Int) : Bool :=
  (List.range (v3 - v1).toNat).all fun i =>
    (mget reg.migrations (migKey t (v1 + i))).isSome

/-!
Query engine (`storage/queryengine.go`).  Snapshots persisted by the
snapshot manager are embedded as the list of (state, base-event-id) pairs
in creation order; `latestSnapshot` is the last one appended, and restoring
a snapshot the manager itself wrote yields the stored state (its hash was
computed over that very serialization).
-/

/-- Source `storage.QueryEngine`: the event store view (decodable events
plus the log's next id), the snapshot history, the cache fields and the
snapshot toggle. -/
structure QueryEngine where
  storeEvents : List Event
  storeNextID : Nat
  snapshots : List (DerivedState × Nat)
  cachedState : Option DerivedState
  cachedUpToEventID : Nat
  enableSnapshots : Bool
  deriving Repr

/-- Source `QueryEngine.GetCurrentState`: restore the latest snapshot when
enabled and present (else start empty at base id 0), fetch the events past
the base id, replay them onto the base, store the result and the store's
last id in the cache fields, and return the result.  No path reads
`cachedState`. -/
def GetCurrentState (qe : QueryEngine) : DerivedState × QueryEngine :=
  let basePair : DerivedState × Nat :=
    if qe.enableSnapshots then
      match qe.snapshots.getLast? with
      | some p => p
      | none => (DerivedState.empty, 0)
    else (DerivedState.empty, 0)
  let events := qe.storeEvents.filter fun e => basePair.2 + 1 ≤ e.id
  let state := if events.isEmpty then basePair.1 else applyEvents basePair.1 events
  (state, { qe with cachedState := some state, cachedUpToEventID := qe.storeNextID - 1 })

/-!
Database façade (the event-sourced `database` package: `CreateTable`,
`Insert`, `Update`, `Delete`, index rebuild and recovery).  The façade's
log never contains damaged records — `Append` always writes a well-formed
record — so the log is carried as its decoded event list plus the next id,
and `GetEventsFrom(k)` is the id filter (`ReadFrom` on an undamaged log).
The query-engine cache fields are omitted here: `GetCurrentState` reads
only the event store and the snapshot manager (see the cache-independence
theorem below), so they cannot influence any façade result.
-/

/-- Façade errors, by spec taxonomy kind (the Go code returns message
strings built with `fmt.Errorf`). -/
inductive DBErr where
  | validation (msg : String)
  | duplicateKey (msg : String)
  | noSuchTable (msg : String)
  | duplicateTable (msg : String)
  | whereRequired (msg : String)
  deriving DecidableEq, Repr

/-- Source `index.Index`: per-column hash map from the `%v` rendering of a
value to the list of row ids. -/
structure Index where
  column : String
  data : List (String × List Int)
  deriving DecidableEq, Repr

/-- Source `index.New`. -/
def Index.new (column : String) : Index :=
  { column := column, data := [] }

/-- Source `Index.Add`: append the row id under the rendered key. -/
def Index.add (idx : Index) (v : Value) (rowID : Int) : Index :=
  let key := v.render
  { idx with data := mset idx.data key ((mget idx.data key).getD [] ++ [rowID]) }

/-- Source `Index.Remove`: drop the row id's occurrences under the rendered
key, deleting the key when nothing remains. -/
def Index.remove (idx : Index) (v : Value) (rowID : Int) : Index :=
  let key := v.render
  match mget idx.data key with
  | none => idx
  | some ids =>
      let newIDs := ids.filter fun i => i ≠ rowID
      if newIDs.isEmpty then { idx with data := mdel idx.data key }
      else { idx with data := mset idx.data key newIDs }

/-- Source `Index.Lookup`. -/
def Index.lookup (idx : Index) (v : Value) : Option (List Int) :=
  mget idx.data v.render

/-- Source `Index.Exists`. -/
def Index.existsVal (idx : Index) (v : Value) : Bool :=
  (mget idx.data v.render).isSome

/-- Source `database.Database`, the event-sourced façade: event store
(decoded log plus next id and current schema version), catalog, per-table
per-column indexes, per-table next row id, snapshot history and the
snapshot interval (1000 in `database.New`). -/
structure DB where
  events : List Event
  nextEventID : Nat
  schemaVersion : Int
  catalog : List (String × Table)
  indexes : List (String × List (String × Index))
  nextRowID : List (String × Int)
  snapshots : List (DerivedState × Nat)
  snapshotInterval : Nat
  deriving Repr

/-- A fresh database over an empty data directory. -/
def DB.new (interval : Nat) : DB :=
  { events := [], nextEventID := 1, schemaVersion := 1, catalog := [],
    indexes := [], nextRowID := [], snapshots := [], snapshotInterval := interval }

/-- Source `EventStore.GetLastEventID` / `Log.LastID`. -/
def DB.lastEventID (db : DB) : Nat :=
  db.nextEventID - 1

/-- Append one event through the event store (`Log.Append` with the store's
current schema version; timestamps are opaque and stamped 0). -/
def DB.recordEvent (db : DB) (payload : Payload) (txID : String) : DB × Event :=
  let e : Event :=
    { id := db.nextEventID, timestamp := 0, version := db.schemaVersion,
      txID := txID, payload := payload, checksum := "" }
  ({ db with events := db.events ++ [e], nextEventID := db.nextEventID + 1 }, e)

/-- Source `QueryEngine.GetCurrentState` as seen by the façade: latest
snapshot (always enabled there) plus the tail of events past its base
id. -/
def DB.getCurrentState (db : DB) : DerivedState :=
  let basePair : DerivedState × Nat :=
    match db.snapshots.getLast? with
    | some p => p
    | none => (DerivedState.empty, 0)
  let events := db.events.filter fun e => basePair.2 + 1 ≤ e.id
  if events.isEmpty then basePair.1 else applyEvents basePair.1 events

/-- The `tx_<last-id>` transaction tag the façade builds before each
mutation. -/
def DB.txTag (db : DB) : String :=
  "tx_" ++ toString db.lastEventID

/-- The per-column body of `validateRow`'s loop: presence, then the type
switch (INT demands the `float64` representation, TEXT a string, BOOL a
bool). -/
def checkColumns : List Column → Row → Except DBErr Unit
  | [], _ => .ok ()
  | c :: rest, row =>
      match mget row c.name with
      | none => .error (.validation ("missing column: " ++ c.name))
      | some v =>
          match c.ty with
          | .int =>
              if v.isFloat then checkColumns rest row
              else .error (.validation ("column expects INT: " ++ c.name))
          | .text =>
              match v with
              | .vStr _ => checkColumns rest row
              | _ => .error (.validation ("column expects TEXT: " ++ c.name))
          | .bool =>
              match v with
              | .vBool _ => checkColumns rest row
              | _ => .error (.validation ("column expects BOOL: " ++ c.name))

/-- Source `database.validateRow`: the column loop, then the extra-columns
length check. -/
def validateRow (table : Table) (row : Row) : Except DBErr Unit :=
  match checkColumns table.columns row with
  | .error e => .error e
  | .ok () =>
      if row.length = table.columns.length then .ok ()
      else .error (.validation "row has extra columns")

/-- Source façade `CreateTable`: catalog insert (DUPLICATE_TABLE when
present; the catalog stores the table with its `primaryKey` field left
empty), fresh index structures for primary-key/unique columns, next row id
0, then the SCHEMA_CREATED event (whose payload's primary key is the last
flagged column). -/
def DB.CreateTable (db : DB) (tableName : String) (columns : List Column) :
    Except DBErr DB :=
  match mget db.catalog tableName with
  | some _ => .error (.duplicateTable ("table already exists: " ++ tableName))
  | none =>
      let table : Table := { name := tableName, columns := columns, primaryKey := "" }
      let db1 : DB := { db with
        catalog := mset db.catalog tableName table,
        indexes := mset db.indexes tableName
          (columns.foldl (fun m c =>
            if c.primaryKey || c.unique then mset m c.name (Index.new c.name) else m) []),
        nextRowID := mset db.nextRowID tableName 0 }
      let colDefs : List ColumnDef := columns.map fun c =>
        { name := c.name,
          ty := (match c.ty with | .int => "INT" | .text => "TEXT" | .bool => "BOOL"),
          nullable := true, primaryKey := c.primaryKey, unique := c.unique }
      let pk : String := columns.foldl (fun acc c => if c.primaryKey then c.name else acc) ""
      let tx := db1.txTag
      .ok (db1.recordEvent (.schemaCreated tableName colDefs pk) tx).1

/-- The `for colName, idx := range db.indexes[t]` add loop shared by
`Insert` and `Update`. -/
def DB.addToIndexes (db : DB) (t : String) (row : Row) (rowID : Int) : DB :=
  let tidx := (mget db.indexes t).getD []
  let tidx' := tidx.foldl (fun m p =>
    match mget row p.1 with
    | some v => mset m p.1 (p.2.add v rowID)
    | none => m) tidx
  { db with indexes := mset db.indexes t tidx' }

/-- The matching remove loop shared by `Update` and `Delete`. -/
def DB.removeFromIndexes (db : DB) (t : String) (row : Row) (rowID : Int) : DB :=
  let tidx := (mget db.indexes t).getD []
  let tidx' := tidx.foldl (fun m p =>
    match mget row p.1 with
    | some v => mset m p.1 (p.2.remove v rowID)
    | none => m) tidx
  { db with indexes := mset db.indexes t tidx' }

/-- The unique-constraint loop of `Insert`: the first unique non-PK column
whose index already holds the row's value, if any. -/
def uniqueViolation (db : DB) (t : String) (columns : List Column) (row : Row) :
    Option String :=
  columns.foldl (fun acc c =>
    match acc with
    | some _ => acc
    | none =>
        if c.unique && !c.primaryKey then
          match mget ((mget db.indexes t).getD []) c.name with
          | some idx =>
              if idx.existsVal ((mget row c.name).getD (.vStr "<nil>")) then some c.name
              else none
          | none => none
        else none) none

/-- Source façade `Insert` (event-sourced path): schema lookup, row
validation, current state (kept for the snapshot trigger), primary-key and
unique-index checks, row-id allocation from `nextRowID`, the ROW_INSERTED
event, index maintenance, and the snapshot capture when the post-append
last event id is a multiple of the snapshot interval — capturing the state
read before the event was appended, with the post-append id as base. -/
def DB.Insert (db : DB) (tableName : String) (row : Row) :
    Except DBErr (DB × Int) :=
  match mget db.catalog tableName with
  | none => .error (.noSuchTable ("table does not exist: " ++ tableName))
  | some table =>
      match validateRow table row with
      | .error e => .error e
      | .ok () =>
          let state := db.getCurrentState
          let pkIdx : Option Index :=
            if table.primaryKey ≠ "" then mget ((mget db.indexes tableName).getD []) table.primaryKey
            else none
          let pkDup : Bool :=
            match pkIdx with
            | some idx => idx.existsVal ((mget row table.primaryKey).getD (.vStr "<nil>"))
            | none => false
          if pkDup then .error (.duplicateKey "primary key violation")
          else
            match uniqueViolation db tableName table.columns row with
            | some c => .error (.duplicateKey ("unique constraint violation on column " ++ c))
            | none =>
                let rowID := (mget db.nextRowID tableName).getD 0
                let db1 : DB := { db with nextRowID := mset db.nextRowID tableName (rowID + 1) }
                let tx := db1.txTag
                let db2 := (db1.recordEvent (.rowInserted tableName rowID row) tx).1
                let db3 := db2.addToIndexes tableName row rowID
                let lastID := db3.lastEventID
                let db4 : DB :=
                  if 0 < lastID ∧ lastID % db3.snapshotInterval = 0 then
                    { db3 with snapshots := db3.snapshots ++ [(state, lastID)] }
                  else db3
                .ok (db4, rowID)

/-- The per-matching-row body of `Update`'s loop, with the source's order:
remove the row's index entries, build the new row, validate (returning the
error with the indexes already mutated), emit ROW_UPDATED, re-add index
entries.  `wc` is the WHERE clause as (column, literal). -/
def updateLoop (table : Table) (t : String) (setCol : String) (setVal : Value)
    (wc : String × Value) (tx : String) :
    List (Int × Row) → DB → Nat → DB × Nat × Option DBErr
  | [], db, count => (db, count, none)
  | (rid, row) :: rest, db, count =>
      match mget row wc.1 with
      | some v =>
          if valuesEqual v wc.2 then
            let db1 := db.removeFromIndexes t row rid
            let newRow := mset row setCol setVal
            match validateRow table newRow with
            | .error e => (db1, count, some e)
            | .ok () =>
                let oldVal := (mget row setCol).getD (.vStr "<nil>")
                let db2 := (db1.recordEvent
                  (.rowUpdated t rid [(setCol, setVal)] [(setCol, oldVal)]) tx).1
                let db3 := db2.addToIndexes t newRow rid
                updateLoop table t setCol setVal wc tx rest db3 (count + 1)
          else updateLoop table t setCol setVal wc tx rest db count
      | none => updateLoop table t setCol setVal wc tx rest db count

/-- Source façade `Update`: schema lookup, WHERE_REQUIRED check, current
state, then the loop above over the visible rows.  Returns the database as
left by the call (Go mutates the receiver), the update count and the error,
if any. -/
def DB.Update (db : DB) (tableName : String) (setCol : String) (setVal : Value)
    (whereC : Option (String × Value)) : DB × Nat × Option DBErr :=
  match mget db.catalog tableName with
  | none => (db, 0, some (.noSuchTable ("table does not exist: " ++ tableName)))
  | some table =>
      match whereC with
      | none => (db, 0, some (.whereRequired "UPDATE requires WHERE clause"))
      | some wc =>
          let state := db.getCurrentState
          let rows := state.getTableRows tableName
          updateLoop table tableName setCol setVal wc db.txTag rows db 0

/-- The per-matching-row body of `Delete`'s loop: remove index entries and
emit ROW_DELETED with the previous row data. -/
def deleteLoop (t : String) (wc : String × Value) (tx : String) :
    List (Int × Row) → DB → Nat → DB × Nat
  | [], db, count => (db, count)
  | (rid, row) :: rest, db, count =>
      match mget row wc.1 with
      | some v =>
          if valuesEqual v wc.2 then
            let db1 := db.removeFromIndexes t row rid
            let db2 := (db1.recordEvent (.rowDeleted t rid row) tx).1
            deleteLoop t wc tx rest db2 (count + 1)
          else deleteLoop t wc tx rest db count
      | none => deleteLoop t wc tx rest db count

/-- Source façade `Delete`: existence check, WHERE_REQUIRED check, then the
loop above over the visible rows. -/
def DB.Delete (db : DB) (tableName : String) (whereC : Option (String × Value)) :
    DB × Nat × Option DBErr :=
  if (mget db.catalog tableName).isSome then
    match whereC with
    | none => (db, 0, some (.whereRequired "DELETE requires WHERE clause"))
    | some wc =>
        let state := db.getCurrentState
        let rows := state.getTableRows tableName
        let r := deleteLoop tableName wc db.txTag rows db 0
        (r.1, r.2, none)
  else (db, 0, some (.noSuchTable ("table does not exist: " ++ tableName)))

/-- Source `rebuildIndexes` for one table: fresh index structures, next row
id 0, then the loop over the VISIBLE rows of the current derived state that
tracks `nextRowID` (`if r.ID >= next then next = r.ID + 1`) and populates
the indexes. -/
def DB.rebuildIndexesFor (db : DB) (tableName : String) (table : Table) : DB :=
  let db1 : DB := { db with
    indexes := mset db.indexes tableName
      (table.columns.foldl (fun m c =>
        if c.primaryKey || c.unique then mset m c.name (Index.new c.name) else m) []),
    nextRowID := mset db.nextRowID tableName 0 }
  let state := db1.getCurrentState
  let rows := state.getTableRows tableName
  rows.foldl (fun d p =>
    let d1 : DB :=
      if (mget d.nextRowID tableName).getD 0 ≤ p.1 then
        { d with nextRowID := mset d.nextRowID tableName (p.1 + 1) }
      else d
    d1.addToIndexes tableName p.2 p.1) db1

/-- Source `database.New` over an existing data directory (recovery): the
event store is rebuilt from the log, the catalog is loaded from disk
(passed in here), the snapshot index is loaded, and `rebuildAllIndexes`
runs `rebuildIndexesFor` on every catalog table. -/
def DB.recover (events : List Event) (catalog : List (String × Table))
    (snapshots : List (DerivedState × Nat)) (interval : Nat) : DB :=
  let db0 : DB :=
    { events := events, nextEventID := events.length + 1,
      schemaVersion := 1 + ((events.filter fun e =>
        match e.payload with | .schemaEvolved _ => true | _ => false).length : Int),
      catalog := catalog, indexes := [], nextRowID := [],
      snapshots := snapshots, snapshotInterval := interval }
  catalog.foldl (fun d p => d.rebuildIndexesFor p.1 p.2) db0

/-- Extract the success value of an `Except`, with an explicit default for
the (unreachable in our uses) error side. -/
def okD {ε α : Type} (dflt : α) : Except ε α → α
  | .ok a => a
  | .error _ => dflt

/-! Association-list lemmas used throughout. -/

theorem mget_mset_self {κ α : Type} [DecidableEq κ] (m : List (κ × α)) (k : κ) (v : α) :
    mget (mset m k v) k = some v := by
  induction m with
  | nil => simp [mset, mget]
  | cons p rest ih =>
      by_cases h : p.1 = k
      · simp [mset, h, mget]
      · simp [mset, h, mget, ih]

theorem mget_mset_ne {κ α : Type} [DecidableEq κ] (m : List (κ × α)) (k k' : κ) (v : α)
    (h : k ≠ k') : mget (mset m k v) k' = mget m k' := by
  induction m with
  | nil => simp [mset, mget, h]
  | cons p rest ih =>
      by_cases hp : p.1 = k
      · simp [mset, hp, mget, h]
      · simp [mset, hp, mget, ih]

theorem mem_of_mget_eq_some {κ α : Type} [DecidableEq κ] {m : List (κ × α)} {k : κ} {v : α}
    (h : mget m k = some v) : (k, v) ∈ m := by
  induction m with
  | nil => simp [mget] at h
  | cons p rest ih =>
      by_cases hp : p.1 = k
      · simp [mget, hp] at h
        have hpv : p = (k, v) := by
          cases p
          simp_all
        exact hpv ▸ List.mem_cons_self p rest
      · simp [mget, hp] at h
        exact List.mem_cons_of_mem _ (ih h)

theorem mget_eq_some_of_mem {κ α : Type} [DecidableEq κ] {m : List (κ × α)} {k : κ} {v : α}
    (hnd : (m.map Prod.fst).Nodup) (h : (k, v) ∈ m) : mget m k = some v := by
  induction m with
  | nil => simp at h
  | cons p rest ih =>
      simp only [List.map_cons, List.nodup_cons] at hnd
      rcases List.mem_cons.mp h with h1 | h2
      · subst h1
        simp [mget]
      · have hk : p.1 ≠ k := by
          intro he
          exact hnd.1 (he ▸ (List.mem_map.mpr ⟨(k, v), h2, rfl⟩))
        simp [mget, hk]
        exact ih hnd.2 h2

/-!
Claim C5.  The claim states that `read_from(start_id)` skips checksum-damaged
(but decodable) records.  `Log.ReadFrom` performs no checksum validation at
all, so a decodable record with a failing checksum is returned; the
counterexample exhibits one.
-/

/-- A concrete stand-in for hex-rendered SHA-256 in counterexamples. -/
def hashC : Event → String := fun e => "H" ++ toString e.id

/-- Claim C5, counterexample: a log holding a single decodable record whose
checksum does not validate; `read_from(1)` returns that event instead of
skipping it, refuting "decodable records whose checksum fails validation are
skipped silently". -/
theorem readFrom_returns_checksum_damaged_event :
    logReadFrom ⟨[LogRec.ok ⟨1, 0, 1, "", .schemaCreated "t" [] "", "bad"⟩], 2⟩ 1
      = [⟨1, 0, 1, "", .schemaCreated "t" [] "", "bad"⟩]
    ∧ validateEventChecksum hashC ⟨1, 0, 1, "", .schemaCreated "t" [] "", "bad"⟩ = false := by
  constructor
  · rfl
  · decide

/-- Claim C5, amended: `read_from(start_id)` returns exactly the decodable
events with id at least `start_id` that precede the first structurally
damaged record; it does not validate checksums, so checksum-damaged but
decodable events are included. -/
theorem readFrom_decodable_events_from_id (l : EventLog) (start : Nat) :
    logReadFrom l start
      = ((l.recs.takeWhile LogRec.isOk).filterMap LogRec.event?).filter
          (fun e => decide (start ≤ e.id)) := by
  unfold logReadFrom
  induction l.recs with
  | nil => rfl
  | cons r rest ih =>
      cases r with
      | damaged => rfl
      | ok e =>
          by_cases h : start ≤ e.id
          · simp [readFromRecs, h, List.takeWhile, LogRec.isOk, LogRec.event?,
              List.filterMap, List.filter, ih]
          · simp [readFromRecs, h, List.takeWhile, LogRec.isOk, LogRec.event?,
              List.filterMap, List.filter, ih]

/-!
Claim C6: append followed by read_all returns the stored event, whose id is
the one append assigned and whose checksum validates.
-/

theorem readRecs_append_ok (hash : Event → String) (recs : List LogRec) (e : Event)
    (hnd : ∀ r ∈ recs, r.isOk = true) :
    readRecs hash (recs ++ [LogRec.ok e])
      = readRecs hash recs ++ (if validateEventChecksum hash e then [e] else []) := by
  induction recs with
  | nil => simp [readRecs]
  | cons r rest ih =>
      cases r with
      | damaged => simp [LogRec.isOk] at hnd
      | ok e' =>
          have hrest : ∀ r ∈ rest, r.isOk = true := fun r hr => hnd r (by simp [hr])
          by_cases hv : validateEventChecksum hash e'
          · simp [readRecs, hv, ih hrest]
          · simp [readRecs, hv, ih hrest]

/-- Claim C6: for every event written via `append` to a log whose records
are all structurally decodable (every record `append` itself writes is),
a subsequent `read_all` returns that very event — in particular one whose
id equals the id `append` returned — and its checksum validates:
recomputing the hash over the event with the checksum field cleared yields
the stored checksum. -/
theorem append_read_roundtrip_checksum_valid (hash : Event → String) (l : EventLog)
    (payload : Payload) (txID : String) (version : Int) (now : Nat)
    (hnd : ∀ r ∈ l.recs, r.isOk = true) :
    (logAppend hash l payload txID version now).2
        ∈ logRead hash (logAppend hash l payload txID version now).1
    ∧ (logAppend hash l payload txID version now).2.id = l.currentID
    ∧ validateEventChecksum hash (logAppend hash l payload txID version now).2 = true := by
  have hval : validateEventChecksum hash (logAppend hash l payload txID version now).2 = true := by
    simp [logAppend, validateEventChecksum, computeEventChecksum]
  refine ⟨?_, rfl, hval⟩
  show (logAppend hash l payload txID version now).2
      ∈ readRecs hash (l.recs ++ [LogRec.ok (logAppend hash l payload txID version now).2])
  rw [readRecs_append_ok hash l.recs _ hnd, hval]
  simp

/-- Claim C6, witness at a concrete log, payload and hash function. -/
theorem append_read_roundtrip_checksum_valid_witness :
    (logAppend hashC ⟨[], 1⟩ (.schemaCreated "t" [] "") "tx" 1 7).2
        ∈ logRead hashC (logAppend hashC ⟨[], 1⟩ (.schemaCreated "t" [] "") "tx" 1 7).1
    ∧ (logAppend hashC ⟨[], 1⟩ (.schemaCreated "t" [] "") "tx" 1 7).2.id = 1
    ∧ validateEventChecksum hashC (logAppend hashC ⟨[], 1⟩ (.schemaCreated "t" [] "") "tx" 1 7).2
        = true :=
  append_read_roundtrip_checksum_valid hashC ⟨[], 1⟩ (.schemaCreated "t" [] "") "tx" 1 7
    (by simp)

/-!
Claim C9.  `GetCurrentState` writes the cache fields but no code path reads
them: the function always restores the latest snapshot (when enabled and
present) and replays the tail, whatever the cache holds.
-/

/-- A query-engine state whose cache is filled and current (its tail event
id equals the store's last id) yet holds a state other than the recomputed
one. -/
def qeCex : QueryEngine :=
  { storeEvents := [⟨1, 0, 1, "", .schemaCreated "t" [] "", ""⟩],
    storeNextID := 2,
    snapshots := [],
    cachedState := some { tables := [("u", [])], deletedRows := [("u", [])] },
    cachedUpToEventID := 1,
    enableSnapshots := true }

/-- Claim C9, counterexample: with caching filled and the cached tail event
id equal to the store's last id, `get_current_state` does not return the
cached state — it recomputes by snapshot restore plus replay, so the result
differs from the cache contents. -/
theorem getCurrentState_does_not_return_cache :
    qeCex.cachedUpToEventID = qeCex.storeNextID - 1
    ∧ qeCex.cachedState
        = some { tables := [("u", [])], deletedRows := [("u", [])] }
    ∧ (GetCurrentState qeCex).1
        ≠ ({ tables := [("u", [])], deletedRows := [("u", [])] } : DerivedState) := by
  refine ⟨rfl, rfl, ?_⟩
  decide

/-- Claim C9, amended: the cached state is never consulted —
`get_current_state` returns the same result for any cache contents (it
depends only on the event store and the snapshot manager), and every call
overwrites the cache with that result and the store's last event id. -/
theorem getCurrentState_cache_independent (ev : List Event) (nid : Nat)
    (snaps : List (DerivedState × Nat)) (en : Bool)
    (c1 c2 : Option DerivedState) (u1 u2 : Nat) :
    (GetCurrentState ⟨ev, nid, snaps, c1, u1, en⟩).1
        = (GetCurrentState ⟨ev, nid, snaps, c2, u2, en⟩).1
    ∧ (GetCurrentState ⟨ev, nid, snaps, c1, u1, en⟩).2.cachedState
        = some (GetCurrentState ⟨ev, nid, snaps, c1, u1, en⟩).1
    ∧ (GetCurrentState ⟨ev, nid, snaps, c1, u1, en⟩).2.cachedUpToEventID = nid - 1 :=
  ⟨rfl, rfl, rfl⟩

/-!
Claim C3.  `replayEventsOntoState` does not clone the base: its working
state is built with `Tables: baseState.Tables` and
`DeletedRows: baseState.DeletedRows`, so every event mutates the caller's
map objects through the shared reference.
-/

/-- A heap with a single populated state at cells (0, 0).  The base keeps
its two maps key-synchronized — table `t` is present in both the row maps
and the tombstone maps — as every state the replay functions produce does
(they always create the two per-table inner maps together), so the Go
ROW_DELETED case writes into an existing inner map here. -/
def c3Heap : Heap :=
  { tcells := fun n => if n = 0 then [("t", [(0, [("a", Value.vFloat 1)])])] else [],
    dcells := fun n => if n = 0 then [("t", [])] else [] }

/-- Claim C3, counterexample: after replaying a single ROW_DELETED event
onto the base, the caller's base state is no longer its pre-call value —
the call mutated it, refuting "the caller's base state (its table maps and
tombstone sets) is left unchanged by the call". -/
theorem replayEventsOntoState_mutates_base :
    heapRead (replayEventsOntoState c3Heap ⟨0, 0⟩ [⟨1, 0, 1, "", .rowDeleted "t" 0 [], ""⟩]).2 ⟨0, 0⟩
      ≠ heapRead c3Heap ⟨0, 0⟩ := by
  decide

theorem heapRead_heapWrite_same (h : Heap) (r : StateRef) (s : DerivedState) :
    heapRead (heapWrite h r s) r = s := by
  simp [heapRead, heapWrite]

theorem replay_fold_through_ref (base : StateRef) (events : List Event) (h : Heap) :
    heapRead
        (events.foldl (fun hh e => heapWrite hh base (applyEvent (heapRead hh base) e)) h)
        base
      = applyEvents (heapRead h base) events := by
  induction events generalizing h with
  | nil => rfl
  | cons e rest ih =>
      show heapRead (rest.foldl _ (heapWrite h base (applyEvent (heapRead h base) e))) base
          = applyEvents (heapRead h base) (e :: rest)
      rw [ih, heapRead_heapWrite_same]
      rfl

/-- Claim C3, amended: the builder returns the base's own reference (the
working state shares the base's maps), the state reachable through the
returned reference equals the events applied to the base's pre-call
contents — so the result still equals a clone-then-apply — but the caller's
base state after the call equals that returned state, not its pre-call
value: the base is updated in place. -/
theorem replayEventsOntoState_aliases_base (h : Heap) (base : StateRef)
    (events : List Event) :
    (replayEventsOntoState h base events).1 = base
    ∧ heapRead (replayEventsOntoState h base events).2 (replayEventsOntoState h base events).1
        = applyEvents (heapRead h base) events
    ∧ heapRead (replayEventsOntoState h base events).2 base
        = heapRead (replayEventsOntoState h base events).2
            (replayEventsOntoState h base events).1 :=
  ⟨rfl, replay_fold_through_ref base events h, rfl⟩

/-!
Claim C8: the `MigrateRow` algebra — identity at equal versions,
BACKWARD_MIGRATION on descending versions, in-order application of the
registered per-step migrations with NO_MIGRATION_PATH on a missing step,
and composition through any intermediate version.
-/

theorem migrateLoop_stop (reg : SchemaRegistry) (t : String) (vTo v : Int) (row : Row)
    (h : ¬ v < vTo) : migrateLoop reg t vTo v row = .ok row := by
  rw [migrateLoop]
  simp [h]

theorem migrateLoop_missing (reg : SchemaRegistry) (t : String) (vTo v : Int) (row : Row)
    (h : v < vTo) (hm : mget reg.migrations (migKey t v) = none) :
    migrateLoop reg t vTo v row = .error .noMigrationPath := by
  rw [migrateLoop]
  simp [h, hm]

theorem migrateLoop_step (reg : SchemaRegistry) (t : String) (vTo v : Int) (row : Row)
    (m : Migration) (h : v < vTo) (hm : mget reg.migrations (migKey t v) = some m) :
    migrateLoop reg t vTo v row = migrateLoop reg t vTo (v + 1) (applyMigration row m) := by
  rw [migrateLoop]
  simp [h, hm]

theorem migrateLoop_error_of_missing (reg : SchemaRegistry) (t : String) :
    ∀ (n : Nat) (v vTo : Int) (row : Row), v + (n : Int) = vTo →
      (∃ i : Nat, i < n ∧ mget reg.migrations (migKey t (v + (i : Int))) = none) →
      migrateLoop reg t vTo v row = .error .noMigrationPath := by
  intro n
  induction n with
  | zero => intro v vTo row _ hex; omega
  | succ k ih =>
      intro v vTo row hsum hex
      have hv : v < vTo := by omega
      cases hm : mget reg.migrations (migKey t v) with
      | none => exact migrateLoop_missing reg t vTo v row hv hm
      | some m =>
          rw [migrateLoop_step reg t vTo v row m hv hm]
          refine ih (v + 1) vTo (applyMigration row m) (by omega) ?_
          obtain ⟨i, hi, hnone⟩ := hex
          have hi0 : i ≠ 0 := by
            intro h0
            rw [h0] at hnone
            simp at hnone
            rw [hnone] at hm
            exact Option.noConfusion hm
          exact ⟨i - 1, by omega, by
            have : v + 1 + ((i - 1 : Nat) : Int) = v + (i : Int) := by omega
            rw [this]
            exact hnone⟩

theorem migrateLoop_comp (reg : SchemaRegistry) (t : String) :
    ∀ (n : Nat) (v1 v2 v3 : Int) (row : Row), v1 + (n : Int) = v2 → v2 ≤ v3 →
      (∀ i : Nat, i < n → (mget reg.migrations (migKey t (v1 + (i : Int)))).isSome) →
      migrateLoop reg t v3 v1 row
        = (migrateLoop reg t v2 v1 row).bind fun r => migrateLoop reg t v3 v2 r := by
  intro n
  induction n with
  | zero =>
      intro v1 v2 v3 row hsum _ _
      have hv : v1 = v2 := by omega
      subst hv
      rw [migrateLoop_stop reg t v1 v1 row (by omega)]
      rfl
  | succ k ih =>
      intro v1 v2 v3 row hsum h23 hreg
      have hv12 : v1 < v2 := by omega
      have hv13 : v1 < v3 := by omega
      have h0 := hreg 0 (by omega)
      simp only [Int.ofNat_zero, add_zero] at h0
      cases hm : mget reg.migrations (migKey t v1) with
      | none =>
          rw [hm] at h0
          simp at h0
      | some m =>
          rw [migrateLoop_step reg t v3 v1 row m hv13 hm,
            migrateLoop_step reg t v2 v1 row m hv12 hm]
          refine ih (v1 + 1) v2 v3 (applyMigration row m) (by omega) h23 ?_
          intro i hi
          have := hreg (i + 1) (by omega)
          have hcast : v1 + ((i + 1 : Nat) : Int) = v1 + 1 + (i : Int) := by omega
          rw [hcast] at this
          exact this

/-- Claim C8: `migrate_row` is the identity at equal versions, fails with
BACKWARD_MIGRATION on descending versions, applies the registered step
migrations in order (unfolding one registered step at a time) and fails
with NO_MIGRATION_PATH when any step in the range is unregistered; and when
every step between `v1` and `v3` is registered, migrating `v1 → v3` equals
migrating `v1 → v2` followed by `v2 → v3`. -/
theorem migrateRow_spec (reg : SchemaRegistry) (t : String) :
    (∀ (row : Row) (v : Int), MigrateRow reg t row v v = .ok row)
    ∧ (∀ (row : Row) (v1 v2 : Int), v2 < v1 →
        MigrateRow reg t row v1 v2 = .error .backwardMigration)
    ∧ (∀ (row : Row) (v1 v2 : Int) (m : Migration), v1 < v2 →
        mget reg.migrations (migKey t v1) = some m →
        MigrateRow reg t row v1 v2 = MigrateRow reg t (applyMigration row m) (v1 + 1) v2)
    ∧ (∀ (row : Row) (v1 v2 : Int), v1 < v2 → stepsRegistered reg t v1 v2 = false →
        MigrateRow reg t row v1 v2 = .error .noMigrationPath)
    ∧ (∀ (row : Row) (v1 v2 v3 : Int), v1 ≤ v2 → v2 ≤ v3 →
        stepsRegistered reg t v1 v3 = true →
        MigrateRow reg t row v1 v3
          = (MigrateRow reg t row v1 v2).bind fun r => MigrateRow reg t r v2 v3) := by
  have hident : ∀ (row : Row) (v : Int), MigrateRow reg t row v v = .ok row := by
    intro row v
    simp [MigrateRow]
  have hback : ∀ (row : Row) (v1 v2 : Int), v2 < v1 →
      MigrateRow reg t row v1 v2 = .error .backwardMigration := by
    intro row v1 v2 h
    have hne : ¬ v1 = v2 := by omega
    simp [MigrateRow, hne, h]
  have hloop : ∀ (row : Row) (v1 v2 : Int), v1 < v2 →
      MigrateRow reg t row v1 v2 = migrateLoop reg t v2 v1 row := by
    intro row v1 v2 h
    have hne : ¬ v1 = v2 := by omega
    have hnlt : ¬ v2 < v1 := by omega
    simp [MigrateRow, hne, hnlt]
  refine ⟨hident, hback, ?_, ?_, ?_⟩
  · intro row v1 v2 m h hm
    rw [hloop row v1 v2 h, migrateLoop_step reg t v2 v1 row m h hm]
    by_cases h2 : v1 + 1 = v2
    · subst h2
      rw [migrateLoop_stop reg t (v1 + 1) (v1 + 1) _ (by omega), hident]
    · rw [hloop _ (v1 + 1) v2 (by omega)]
  · intro row v1 v2 h hreg
    rw [hloop row v1 v2 h]
    have hex : ∃ i : Nat, i < (v2 - v1).toNat
        ∧ mget reg.migrations (migKey t (v1 + (i : Int))) = none := by
      by_contra hall
      push_neg at hall
      have : stepsRegistered reg t v1 v2 = true := by
        unfold stepsRegistered
        rw [List.all_eq_true]
        intro i hi
        rw [List.mem_range] at hi
        have := hall i hi
        cases hcase : mget reg.migrations (migKey t (v1 + (i : Int))) with
        | none => exact absurd hcase this
        | some m => simp
      rw [this] at hreg
      exact Bool.noConfusion hreg
    exact migrateLoop_error_of_missing reg t (v2 - v1).toNat v1 v2 row (by omega) hex
  · intro row v1 v2 v3 h12 h23 hreg
    have hregAll : ∀ i : Nat, i < (v3 - v1).toNat →
        (mget reg.migrations (migKey t (v1 + (i : Int)))).isSome := by
      intro i hi
      unfold stepsRegistered at hreg
      rw [List.all_eq_true] at hreg
      exact hreg i (List.mem_range.mpr hi)
    by_cases h1 : v1 = v2
    · subst h1
      rw [hident]
      rfl
    · have hv12 : v1 < v2 := by omega
      by_cases h2 : v2 = v3
      · subst h2
        rw [hloop row v1 v2 hv12]
        have : ∀ r : Row, Except.ok r = MigrateRow reg t r v2 v2 := fun r => (hident r v2).symm
        cases hres : migrateLoop reg t v2 v1 row with
        | ok r =>
            simp only [hident]
            rfl
        | error e => rfl
      · have hv23 : v2 < v3 := by omega
        rw [hloop row v1 v3 (by omega), hloop row v1 v2 hv12]
        have hcomp := migrateLoop_comp reg t (v2 - v1).toNat v1 v2 v3 row (by omega)
          (by omega) (fun i hi => hregAll i (by omega))
        rw [hcomp]
        cases hres : migrateLoop reg t v2 v1 row with
        | ok r =>
            simp only [Except.bind]
            rw [hloop r v2 v3 hv23]
        | error e => rfl

/-- A concrete registry with the steps 1 → 2 and 2 → 3 registered for the
`users` table. -/
def regC : SchemaRegistry :=
  { migrations :=
      [(migKey "users" 1,
        { fromVersion := 1, toVersion := 2,
          operations := [.addColumn ⟨"email", .text, false, false⟩ (.vStr "none")] }),
       (migKey "users" 2,
        { fromVersion := 2, toVersion := 3,
          operations := [.renameColumn "email" "mail"] })] }

/-- Claim C8, witness: the five parts of `migrateRow_spec` instantiated at
the concrete registry, with every hypothesis discharged by evaluation. -/
theorem migrateRow_spec_witness :
    MigrateRow regC "users" [("id", Value.vFloat 7)] 2 2 = .ok [("id", Value.vFloat 7)]
    ∧ MigrateRow regC "users" [("id", Value.vFloat 7)] 3 1 = .error .backwardMigration
    ∧ MigrateRow regC "users" [("id", Value.vFloat 7)] 1 3
        = (MigrateRow regC "users" [("id", Value.vFloat 7)] 1 2).bind
            (fun r => MigrateRow regC "users" r 2 3)
    ∧ MigrateRow regC "users" [("id", Value.vFloat 7)] 1 5 = .error .noMigrationPath :=
  ⟨(migrateRow_spec regC "users").1 [("id", Value.vFloat 7)] 2,
   (migrateRow_spec regC "users").2.1 [("id", Value.vFloat 7)] 3 1 (by decide),
   (migrateRow_spec regC "users").2.2.2.2 [("id", Value.vFloat 7)] 1 2 3 (by decide)
     (by decide) (by decide),
   (migrateRow_spec regC "users").2.2.2.1 [("id", Value.vFloat 7)] 1 5 (by decide)
     (by decide)⟩

/-!
Claim C10: at the façade, `validateRow` accepts an INT column's value only
when it is carried as `float64`; any other representation — including a
native integer — draws a VALIDATION error, and `Insert` surfaces it.
-/

theorem checkColumns_ok_or_validation (cols : List Column) (row : Row) :
    checkColumns cols row = .ok ()
    ∨ ∃ m, checkColumns cols row = .error (.validation m) := by
  induction cols with
  | nil => left; rfl
  | cons c rest ih =>
      cases hv : mget row c.name with
      | none => right; exact ⟨"missing column: " ++ c.name, by simp [checkColumns, hv]⟩
      | some v =>
          cases hty : c.ty with
          | int =>
              by_cases hf : v.isFloat
              · simpa [checkColumns, hv, hty, hf] using ih
              · right
                exact ⟨"column expects INT: " ++ c.name, by simp [checkColumns, hv, hty, hf]⟩
          | text =>
              cases v with
              | vStr s => simpa [checkColumns, hv, hty] using ih
              | vFloat n =>
                  right
                  exact ⟨"column expects TEXT: " ++ c.name, by simp [checkColumns, hv, hty]⟩
              | vInt n =>
                  right
                  exact ⟨"column expects TEXT: " ++ c.name, by simp [checkColumns, hv, hty]⟩
              | vBool b =>
                  right
                  exact ⟨"column expects TEXT: " ++ c.name, by simp [checkColumns, hv, hty]⟩
          | bool =>
              cases v with
              | vBool b => simpa [checkColumns, hv, hty] using ih
              | vFloat n =>
                  right
                  exact ⟨"column expects BOOL: " ++ c.name, by simp [checkColumns, hv, hty]⟩
              | vInt n =>
                  right
                  exact ⟨"column expects BOOL: " ++ c.name, by simp [checkColumns, hv, hty]⟩
              | vStr st =>
                  right
                  exact ⟨"column expects BOOL: " ++ c.name, by simp [checkColumns, hv, hty]⟩

theorem checkColumns_rejects_nonfloat_int (cols : List Column) (row : Row)
    (c : Column) (v : Value) (hc : c ∈ cols) (hty : c.ty = .int)
    (hv : mget row c.name = some v) (hnf : v.isFloat = false) :
    checkColumns cols row ≠ .ok () := by
  induction cols with
  | nil => simp at hc
  | cons c0 rest ih =>
      rcases List.mem_cons.mp hc with hh | ht
      · subst hh
        simp [checkColumns, hv, hty, hnf]
      · cases hv0 : mget row c0.name with
        | none => simp [checkColumns, hv0]
        | some v0 =>
            cases hty0 : c0.ty with
            | int =>
                by_cases hf0 : v0.isFloat
                · simpa [checkColumns, hv0, hty0, hf0] using ih ht
                · simp [checkColumns, hv0, hty0, hf0]
            | text =>
                cases v0 with
                | vStr s => simpa [checkColumns, hv0, hty0] using ih ht
                | vFloat n => simp [checkColumns, hv0, hty0]
                | vInt n => simp [checkColumns, hv0, hty0]
                | vBool b => simp [checkColumns, hv0, hty0]
            | bool =>
                cases v0 with
                | vBool b => simpa [checkColumns, hv0, hty0] using ih ht
                | vFloat n => simp [checkColumns, hv0, hty0]
                | vInt n => simp [checkColumns, hv0, hty0]
                | vStr s => simp [checkColumns, hv0, hty0]

theorem checkColumns_ok_int_is_float (cols : List Column) (row : Row)
    (hok : checkColumns cols row = .ok ()) :
    ∀ c ∈ cols, c.ty = .int → ∃ q, mget row c.name = some (.vFloat q) := by
  induction cols with
  | nil => simp
  | cons c0 rest ih =>
      intro c hc hty
      cases hv0 : mget row c0.name with
      | none => simp [checkColumns, hv0] at hok
      | some v0 =>
          have hrest : checkColumns rest row = .ok () := by
            cases hty0 : c0.ty with
            | int =>
                by_cases hf0 : v0.isFloat
                · simpa [checkColumns, hv0, hty0, hf0] using hok
                · simp [checkColumns, hv0, hty0, hf0] at hok
            | text =>
                cases v0 with
                | vStr s => simpa [checkColumns, hv0, hty0] using hok
                | vFloat n => simp [checkColumns, hv0, hty0] at hok
                | vInt n => simp [checkColumns, hv0, hty0] at hok
                | vBool b => simp [checkColumns, hv0, hty0] at hok
            | bool =>
                cases v0 with
                | vBool b => simpa [checkColumns, hv0, hty0] using hok
                | vFloat n => simp [checkColumns, hv0, hty0] at hok
                | vInt n => simp [checkColumns, hv0, hty0] at hok
                | vStr s => simp [checkColumns, hv0, hty0] at hok
          rcases List.mem_cons.mp hc with hh | ht
          · subst hh
            cases v0 with
            | vFloat n => exact ⟨n, hv0⟩
            | vInt n => simp [checkColumns, hv0, hty, Value.isFloat] at hok
            | vStr s => simp [checkColumns, hv0, hty, Value.isFloat] at hok
            | vBool b => simp [checkColumns, hv0, hty, Value.isFloat] at hok
          · exact ih hrest c ht hty

/-- Claim C10: a row carrying a non-`float64` value (for example a native
integer) in an INT column is rejected by `Insert` with a VALIDATION error,
and conversely a row that passes `validateRow` carries the `float64`
representation in every INT column. -/
theorem int_column_requires_float64 :
    (∀ (db : DB) (tableName : String) (table : Table) (row : Row) (c : Column) (v : Value),
        mget db.catalog tableName = some table → c ∈ table.columns → c.ty = .int →
        mget row c.name = some v → v.isFloat = false →
        ∃ m, DB.Insert db tableName row = .error (.validation m))
    ∧ (∀ (table : Table) (row : Row), validateRow table row = .ok () →
        ∀ c ∈ table.columns, c.ty = .int → ∃ q, mget row c.name = some (.vFloat q)) := by
  constructor
  · intro db tableName table row c v hcat hc hty hv hnf
    have hne := checkColumns_rejects_nonfloat_int table.columns row c v hc hty hv hnf
    rcases checkColumns_ok_or_validation table.columns row with hok | ⟨m, herr⟩
    · exact absurd hok hne
    · refine ⟨m, ?_⟩
      simp [DB.Insert, hcat, validateRow, herr]
  · intro table row hok c hc hty
    have hcc : checkColumns table.columns row = .ok () := by
      rcases checkColumns_ok_or_validation table.columns row with h | ⟨m, herr⟩
      · exact h
      · simp [validateRow, herr] at hok
    exact checkColumns_ok_int_is_float table.columns row hcc c hc hty

/-- A one-table database for the C10 witness: `t` has the single INT
primary-key column `a`. -/
def dbC10 : DB :=
  { events := [⟨1, 0, 1, "tx_0", .schemaCreated "t"
      [⟨"a", "INT", true, true, false⟩] "a", ""⟩],
    nextEventID := 2, schemaVersion := 1,
    catalog := [("t", ⟨"t", [⟨"a", .int, true, false⟩], ""⟩)],
    indexes := [("t", [("a", Index.new "a")])],
    nextRowID := [("t", 0)],
    snapshots := [], snapshotInterval := 1000 }

/-- Claim C10, witness: inserting a row whose INT column carries a native
integer is rejected with a VALIDATION error. -/
theorem int_column_requires_float64_witness :
    ∃ m, DB.Insert dbC10 "t" [("a", Value.vInt 1)] = .error (.validation m) :=
  int_column_requires_float64.1 dbC10 "t" ⟨"t", [⟨"a", .int, true, false⟩], ""⟩
    [("a", Value.vInt 1)] ⟨"a", .int, true, false⟩ (Value.vInt 1)
    (by decide) (by decide) (by decide) (by decide) (by decide)

/-!
Claim C7: `visible_rows` and `get_row` are exactly the tombstone-filtered
projections of the stored row map, and a ROW_UPDATED event on a tombstoned
row id updates the stored map while both projections keep the id hidden.
-/

/-- Decidable well-formedness: every stored row map has distinct keys, as
Go maps guarantee. -/
def DerivedState.wfb (s : DerivedState) : Bool :=
  s.tables.all fun p => decide (p.2.map Prod.fst).Nodup

theorem nodup_of_wfb {s : DerivedState} {t : String} {tm : List (Int × Row)}
    (hwf : s.wfb = true) (hm : mget s.tables t = some tm) :
    (tm.map Prod.fst).Nodup := by
  have hmem := mem_of_mget_eq_some hm
  unfold DerivedState.wfb at hwf
  rw [List.all_eq_true] at hwf
  have := hwf (t, tm) hmem
  simpa using this

theorem ensureTable_of_present (s : DerivedState) (t : String)
    (hp : (mget s.tables t).isSome = true) : ensureTable s t = s := by
  simp [ensureTable, hp]

/-- The state produced by the ROW_UPDATED case of `applyEvent` when the
table already exists: the stored row map entry is replaced by the merge of
the changes into the previous entry (empty when absent), and the tombstone
sets are untouched. -/
def updatedState (s : DerivedState) (t : String) (id : Int) (changes : Row) : DerivedState :=
  DerivedState.mk
    (mset s.tables t
      (mset ((mget s.tables t).getD []) id
        (mergeChanges ((mget ((mget s.tables t).getD []) id).getD []) changes)))
    s.deletedRows

theorem applyEvent_rowUpdated_present (s : DerivedState) (t : String) (id : Int)
    (changes oldv : Row) (eid ts : Nat) (ver : Int) (tx cks : String)
    (hp : (mget s.tables t).isSome = true) :
    applyEvent s ⟨eid, ts, ver, tx, .rowUpdated t id changes oldv, cks⟩
      = updatedState s t id changes := by
  simp [applyEvent, ensureTable_of_present s t hp, updatedState]

theorem isDeleted_updatedState (s : DerivedState) (t : String) (id : Int)
    (changes : Row) (t' : String) (id' : Int) :
    (updatedState s t id changes).isDeleted t' id' = s.isDeleted t' id' := rfl

/-- Claim C7: (a) a pair is in `visible_rows(t)` exactly when its id is a
key of the stored row map and is not tombstoned; (b) `get_row(t, id)`
returns a row under exactly the same condition; (c) applying a ROW_UPDATED
event to a tombstoned row id of an existing table rewrites the stored row
map entry (merging the changes) yet `get_row` still returns nothing for it
and no pair with that id appears in `visible_rows`. -/
theorem projections_and_tombstone_spec :
    (∀ (s : DerivedState) (t : String) (id : Int) (row : Row), s.wfb = true →
        ((id, row) ∈ s.getTableRows t
          ↔ s.lookupRow t id = some row ∧ s.isDeleted t id = false))
    ∧ (∀ (s : DerivedState) (t : String) (id : Int) (row : Row),
        s.getRow t id = some row
          ↔ s.lookupRow t id = some row ∧ s.isDeleted t id = false)
    ∧ (∀ (s : DerivedState) (t : String) (id : Int) (changes oldv : Row)
        (eid ts : Nat) (ver : Int) (tx cks : String),
        s.isDeleted t id = true → (mget s.tables t).isSome = true →
        (applyEvent s ⟨eid, ts, ver, tx, .rowUpdated t id changes oldv, cks⟩).lookupRow t id
            = some (mergeChanges ((mget ((mget s.tables t).getD []) id).getD []) changes)
        ∧ (applyEvent s ⟨eid, ts, ver, tx, .rowUpdated t id changes oldv, cks⟩).getRow t id
            = none
        ∧ ∀ r : Row, (id, r)
            ∉ (applyEvent s ⟨eid, ts, ver, tx, .rowUpdated t id changes oldv, cks⟩).getTableRows t) := by
  refine ⟨?_, ?_, ?_⟩
  · intro s t id row hwf
    unfold DerivedState.getTableRows DerivedState.lookupRow
    cases hm : mget s.tables t with
    | none => simp
    | some tm =>
        have hnd := nodup_of_wfb hwf hm
        simp only [Option.bind_some, List.mem_filter]
        constructor
        · rintro ⟨hmem, hpred⟩
          refine ⟨mget_eq_some_of_mem hnd hmem, ?_⟩
          simpa using hpred
        · rintro ⟨hget, hdel⟩
          exact ⟨mem_of_mget_eq_some hget, by simpa using hdel⟩
  · intro s t id row
    unfold DerivedState.getRow DerivedState.lookupRow
    cases hm : mget s.tables t with
    | none => simp
    | some tm =>
        simp only [Option.bind_some]
        cases hr : mget tm id with
        | none => simp [hr]
        | some row0 =>
            by_cases hdel : s.isDeleted t id = true
            · simp [hr, hdel]
            · rw [Bool.not_eq_true] at hdel
              simp [hr, hdel]
  · intro s t id changes oldv eid ts ver tx cks hdel hp
    rw [applyEvent_rowUpdated_present s t id changes oldv eid ts ver tx cks hp]
    have hdel' : (updatedState s t id changes).isDeleted t id = true := by
      rw [isDeleted_updatedState]
      exact hdel
    refine ⟨?_, ?_, ?_⟩
    · unfold DerivedState.lookupRow updatedState
      simp [mget_mset_self]
    · unfold DerivedState.getRow
      have htm : mget (updatedState s t id changes).tables t
          = some (mset ((mget s.tables t).getD []) id
              (mergeChanges ((mget ((mget s.tables t).getD []) id).getD []) changes)) := by
        unfold updatedState
        exact mget_mset_self _ _ _
      rw [htm]
      simp [mget_mset_self, hdel']
    · intro r hr
      unfold DerivedState.getTableRows at hr
      have htm : mget (updatedState s t id changes).tables t
          = some (mset ((mget s.tables t).getD []) id
              (mergeChanges ((mget ((mget s.tables t).getD []) id).getD []) changes)) := by
        unfold updatedState
        exact mget_mset_self _ _ _
      rw [htm] at hr
      have := (List.mem_filter.mp hr).2
      rw [hdel'] at this
      simp at this

/-- A concrete state for the C7 witness: table `t` stores row id 5, which
is tombstoned. -/
def sW : DerivedState :=
  { tables := [("t", [(5, [("x", Value.vBool true)])])],
    deletedRows := [("t", [(5, true)])] }

/-- Claim C7, witness: the visible-rows characterization and the
tombstone-hiding of a ROW_UPDATED event, at the concrete state. -/
theorem projections_and_tombstone_spec_witness :
    ((5, [("x", Value.vBool true)]) ∈ sW.getTableRows "t"
        ↔ sW.lookupRow "t" 5 = some [("x", Value.vBool true)]
          ∧ sW.isDeleted "t" 5 = false)
    ∧ (applyEvent sW ⟨9, 0, 1, "", .rowUpdated "t" 5 [("x", Value.vBool false)] [], ""⟩).getRow
        "t" 5 = none :=
  ⟨projections_and_tombstone_spec.1 sW "t" 5 [("x", Value.vBool true)] (by decide),
   (projections_and_tombstone_spec.2.2 sW "t" 5 [("x", Value.vBool false)] [] 9 0 1 "" ""
     (by decide) (by decide)).2.1⟩

/-!
Claims C1, C2 and C4: concrete traces through the façade, evaluating the
embedded code at the failing inputs.
-/

/-- The single column used by the façade traces: `a INT PRIMARY KEY`. -/
def colA : Column := ⟨"a", .int, true, false⟩

/-- C1 trace, step 1: fresh database with snapshot interval 2, one table. -/
def dbC1a : DB := okD (DB.new 2) ((DB.new 2).CreateTable "t" [colA])

/-- C1 trace, step 2: the insert that crosses the snapshot threshold. -/
def insC1 : DB × Int := okD (DB.new 2, 99) (dbC1a.Insert "t" [("a", Value.vFloat 1)])

/-- The database after the C1 trace. -/
def dbC1b : DB := insC1.1

/-- The snapshot the C1 insert captured. -/
def snapC1 : DerivedState × Nat := dbC1b.snapshots.getLast?.getD (DerivedState.empty, 0)

/-- Claim C1, failing-input evaluation: the insert of event 2 captures a
snapshot whose base-event-id is 2 but whose state was read before event 2
was appended; restoring that snapshot and replaying the events in (2, 2]
(there are none) loses the inserted row, while replaying [1..2] from empty
contains it.  The claimed equality fails for this snapshot at k = s = 2. -/
theorem insert_snapshot_base_id_mismatch :
    insC1.2 = 0
    ∧ dbC1b.snapshots.length = 1
    ∧ snapC1.2 = 2
    ∧ (applyEvents snapC1.1
        (dbC1b.events.filter fun e => decide (snapC1.2 < e.id ∧ e.id ≤ 2))).getRow "t" 0
        = none
    ∧ (replayEventsUpTo dbC1b.events 2).getRow "t" 0 = some [("a", Value.vFloat 1)] := by
  refine ⟨?_, ?_, ?_, ?_, ?_⟩ <;> decide

/-- C2 trace: create, insert (row id 0), delete the row, then close and
reopen (recovery from the log and the persisted catalog). -/
def dbC2a : DB := okD (DB.new 1000) ((DB.new 1000).CreateTable "t" [colA])

/-- C2 trace: the first insert, allocating row id 0. -/
def insC2a : DB × Int := okD (DB.new 1000, 99) (dbC2a.Insert "t" [("a", Value.vFloat 1)])

/-- C2 trace: deleting the only row, tombstoning id 0. -/
def delC2 : DB × Nat × Option DBErr := insC2a.1.Delete "t" (some ("a", Value.vFloat 1))

/-- C2 trace: recovery after reopening the data directory. -/
def dbC2r : DB := DB.recover delC2.1.events delC2.1.catalog delC2.1.snapshots 1000

/-- C2 trace: the insert after reopening. -/
def insC2b : DB × Int := okD (DB.new 1000, 99) (dbC2r.Insert "t" [("a", Value.vFloat 2)])

/-- Claim C2, failing-input evaluation: recovery computes `next_row_id`
from the VISIBLE rows only, so after insert(row id 0), delete, close and
reopen, `next_row_id[t]` is 0 again and the next insert re-allocates the
tombstoned row id 0 — row ids are reused, and tombstoned rows do not count
as observed. -/
theorem recovery_reuses_tombstoned_row_id :
    insC2a.2 = 0
    ∧ delC2.2.1 = 1
    ∧ delC2.2.2 = none
    ∧ mget dbC2r.nextRowID "t" = some 0
    ∧ insC2b.2 = 0 := by
  refine ⟨?_, ?_, ?_, ?_, ?_⟩ <;> decide

/-- C4 trace: a table with an indexed INT primary-key column holding one
row, then an UPDATE that sets the column to a TEXT value. -/
def dbC4b : DB :=
  (okD (DB.new 1000, 99)
    ((okD (DB.new 1000) ((DB.new 1000).CreateTable "t" [colA])).Insert "t"
      [("a", Value.vFloat 1)])).1

/-- C4 trace: the failing update call. -/
def updC4 : DB × Nat × Option DBErr :=
  dbC4b.Update "t" "a" (Value.vStr "x") (some ("a", Value.vFloat 1))

/-- Claim C4, failing-input evaluation: the update matches row 0, removes
its index entries, and only then validates the new row; the VALIDATION
error is returned with the event log unchanged but the index on column `a`
emptied — the index entry (rendered key "1", row id 0) was removed by the
failed call and never restored. -/
theorem update_validation_error_leaves_index_changed :
    updC4.2.2 = some (.validation "column expects INT: a")
    ∧ updC4.2.1 = 0
    ∧ updC4.1.events.length = dbC4b.events.length
    ∧ mget ((mget dbC4b.indexes "t").getD []) "a"
        = some { column := "a", data := [("1", [0])] }
    ∧ mget ((mget updC4.1.indexes "t").getD []) "a"
        = some { column := "a", data := [] } := by
  refine ⟨?_, ?_, ?_, ?_, ?_⟩ <;> decide

end Spec2Proof
